import Mathlib

/-!
Shallow embedding of the Running-Application tracker (src/app.js).

The source file contains two near-duplicate variants of the application:
  * variant 1 (lines 1-309): pace display, implicit archiving on stop via
    saveToHistory at a 0.1 km threshold;
  * variant 2 (lines 310-678): speed display, explicit saveCurrentRun with a
    0.01 km threshold and a savedRuns array.
JavaScript numbers are modelled as real numbers (ℝ) and epoch milliseconds as
integers (ℤ).  DOM rendering, the Leaflet map and localStorage persistence are
external collaborators and are not part of the embedded core; the statusEl
contents are modelled by the `Status` inductive.
-/

namespace RunningApp

noncomputable section

open Real

/-- Two-argument arctangent, modelling JavaScript `Math.atan2(y, x)`. -/
def atan2 (y x : ℝ) : ℝ :=
  if 0 < x then arctan (y / x)
  else if x < 0 then (if 0 ≤ y then arctan (y / x) + π else arctan (y / x) - π)
  else if 0 < y then π / 2
  else if y < 0 then -(π / 2)
  else 0

/-- From `calculateDistance` in src/app.js: haversine great-circle distance in
kilometres between two latitude/longitude pairs, Earth radius 6371 km. -/
def calculateDistance (lat1 lon1 lat2 lon2 : ℝ) : ℝ :=
  let R : ℝ := 6371
  let dLat := (lat2 - lat1) * π / 180
  let dLon := (lon2 - lon1) * π / 180
  let a :=
    sin (dLat / 2) * sin (dLat / 2) +
      cos (lat1 * π / 180) * cos (lat2 * π / 180) * sin (dLon / 2) * sin (dLon / 2)
  let c := 2 * atan2 (Real.sqrt a) (Real.sqrt (1 - a))
  R * c

/-- JavaScript `String.prototype.padStart(n, c)`: pad on the left up to length
`n` with the character `c`. -/
def padStart (s : String) (n : Nat) (c : Char) : String :=
  String.mk (List.replicate (n - s.length) c) ++ s

/-- From `formatTime` in src/app.js: format a non-negative number of seconds as
zero-padded `HH:MM:SS` (`Math.floor` on a non-negative quotient is `Nat`
division). -/
def formatTime (seconds : Nat) : String :=
  let hrs := seconds / 3600
  let mins := seconds % 3600 / 60
  let secs := seconds % 60
  padStart (toString hrs) 2 '0' ++ ":" ++ padStart (toString mins) 2 '0' ++ ":" ++
    padStart (toString secs) 2 '0'

/-- JavaScript floating-point division; dividing by zero yields a non-finite
value (Infinity or NaN), modelled as `none`. -/
def jsDiv (a b : ℝ) : Option ℝ := if b = 0 then none else some (a / b)

/-- JavaScript `Math.trunc`: rounding toward zero. -/
def jsTrunc (x : ℝ) : ℤ := if 0 ≤ x then ⌊x⌋ else -⌊-x⌋

/-- JavaScript `%` remainder on finite numbers: `x - y * Math.trunc(x / y)`. -/
def jsFmod (x y : ℝ) : ℝ := x - y * jsTrunc (x / y)

/-- From `calculatePace` in src/app.js (variant 1): pace in min/km, with the
sentinel string when the distance is zero.  A `none` result would mean a
non-finite value leaked into the output. -/
def calculatePace (distance : ℝ) (time : ℤ) : Option String :=
  if distance = 0 then some "0:00"
  else
    (jsDiv (time : ℝ) distance).map fun paceInSeconds =>
      let minutes := ⌊paceInSeconds / 60⌋
      let seconds := ⌊jsFmod paceInSeconds 60⌋
      toString minutes ++ ":" ++ padStart (toString seconds) 2 '0'

/-- From `calculateSpeed` in src/app.js (variant 2): speed in km/h, with the
sentinel `0` when the elapsed time is zero.  The source renders the value with
`toFixed(1)`; we model the numeric value.  A `none` result would mean a
non-finite value leaked into the output. -/
def calculateSpeed (distance : ℝ) (time : ℤ) : Option ℝ :=
  if time = 0 then some 0 else jsDiv distance ((time : ℝ) / 3600)

/-- From `calculateCalories` in src/app.js: `Math.round(distance * 60)`. -/
def calculateCalories (distance : ℝ) : ℤ := round (distance * 60)

/-- A recorded GPS sample: `{latitude, longitude, accuracy, timestamp}` as
pushed onto `state.positions`. -/
structure Position where
  latitude : ℝ
  longitude : ℝ
  accuracy : ℝ
  timestamp : ℤ

/-- An archived run as built by `saveCurrentRun` (variant 2): `id` and `date`
are both taken from the clock at save time. -/
structure Run where
  id : ℤ
  date : ℤ
  distance : ℝ
  time : ℤ
  positions : List Position

/-- Error codes delivered to the `watchPosition` error callback. -/
inductive GeoErrorKind where
  | permissionDenied
  | positionUnavailable
  | timedOut
deriving DecidableEq

/-- The contents of `statusEl`:
`gpsActive` = "GPS: Tracking your location..." (class gps-active),
`gpsError k` = "GPS Error: ..." (gps-inactive),
`unsupported` = "GPS not supported" (gps-inactive),
`paused` = "GPS: Tracking paused" (gps-inactive),
`waiting` = "GPS: Waiting for location..." (gps-inactive). -/
inductive Status where
  | gpsActive
  | gpsError (k : GeoErrorKind)
  | unsupported
  | paused
  | waiting
deriving DecidableEq

/-- The mutable application `state` object of variant 2 (src/app.js lines
310-323).  `timerInterval` is not carried explicitly: in every reachable state
the interval timer is live exactly while `isTracking`, so ticks are gated on
`isTracking`.  `nextWatchId` models the browser allocating a fresh positive id
for each `watchPosition` call (geolocation watch ids are positive, so the
JavaScript truthiness test `if (state.watchId)` acts as a null test). -/
@[ext]
structure AppState where
  isTracking : Bool
  startTime : Option ℤ
  currentTime : ℤ
  positions : List Position
  totalDistance : ℝ
  watchId : Option ℕ
  savedRuns : List Run
  status : Status
  nextWatchId : ℕ

/-- The initial `state` object: not tracking, everything empty. -/
def initialState : AppState :=
  { isTracking := false, startTime := none, currentTime := 0, positions := []
    totalDistance := 0, watchId := none, savedRuns := [], status := .waiting
    nextWatchId := 1 }

/-- From `startTracking`: no-op while already tracking; otherwise set
`startTime = now - currentTime*1000` (resuming elapsed time), start the timer,
and, when geolocation is available, register a fresh position watch. -/
def startTracking (geoSupported : Bool) (now : ℤ) (s : AppState) : AppState :=
  if s.isTracking then s
  else if geoSupported then
    { s with isTracking := true, startTime := some (now - s.currentTime * 1000)
             status := .gpsActive, watchId := some s.nextWatchId
             nextWatchId := s.nextWatchId + 1 }
  else
    { s with isTracking := true, startTime := some (now - s.currentTime * 1000)
             status := .unsupported }

/-- The `setInterval` timer callback: while tracking, recompute
`currentTime = Math.floor((now - startTime)/1000)`.  The `none` branch is
unreachable (the timer only runs after `startTracking` set `startTime`). -/
def tick (now : ℤ) (s : AppState) : AppState :=
  if s.isTracking then
    match s.startTime with
    | some t0 => { s with currentTime := Int.fdiv (now - t0) 1000 }
    | none => s
  else s

/-- The `watchPosition` success callback for the watch with id `wid`: the
browser delivers it only while that watch is the registered one.  If there is a
previous position, add `calculateDistance(last, new)` to `totalDistance`; then
push the new sample (timestamped `Date.now()`). -/
def deliverSample (wid : ℕ) (latitude longitude accuracy : ℝ) (now : ℤ)
    (s : AppState) : AppState :=
  if s.watchId = some wid then
    match s.positions.getLast? with
    | some lastPos =>
        { s with
          totalDistance :=
            s.totalDistance +
              calculateDistance lastPos.latitude lastPos.longitude latitude longitude,
          positions := s.positions ++ [⟨latitude, longitude, accuracy, now⟩] }
    | none => { s with positions := s.positions ++ [⟨latitude, longitude, accuracy, now⟩] }
  else s

/-- The `watchPosition` error callback for the watch with id `wid`: it only
logs and updates `statusEl`; no other field of `state` is touched. -/
def geoError (wid : ℕ) (k : GeoErrorKind) (s : AppState) : AppState :=
  if s.watchId = some wid then { s with status := .gpsError k } else s

/-- Models `if (state.watchId) { clearWatch(state.watchId); state.watchId = null }`:
JavaScript treats the id 0 as falsy, so only a positive id is cleared. -/
def clearWatchJS : Option ℕ → Option ℕ
  | some (_ + 1) => none
  | w => w

/-- From `stopTracking` (variant 2): no-op unless tracking; otherwise stop the
timer, clear the watch and show the paused status.  Distance, time and
positions are kept. -/
def stopTracking (s : AppState) : AppState :=
  if s.isTracking then
    { s with isTracking := false, watchId := clearWatchJS s.watchId, status := .paused }
  else s

/-- From `resetTracking` (variant 2): call `stopTracking` first, then clear the
session fields and show the waiting status. -/
def resetTracking (s : AppState) : AppState :=
  { stopTracking s with startTime := none, currentTime := 0, positions := []
                        totalDistance := 0, status := .waiting }

/-- The observable outcome of `saveCurrentRun`: which `alert` fired. -/
inductive SaveResult where
  | runTooShort
  | saved
deriving DecidableEq

/-- From `saveCurrentRun` (variant 2): below 0.01 km alert "Run is too short"
and return without touching anything; otherwise push a run snapshot (`id` and
`date` from the clock, `positions` a copy of the live array) onto `savedRuns`.
The session itself is not reset. -/
def saveCurrentRun (now : ℤ) (s : AppState) : AppState × SaveResult :=
  if s.totalDistance < 0.01 then (s, .runTooShort)
  else
    ({ s with savedRuns :=
        s.savedRuns ++ [⟨now, now, s.totalDistance, s.currentTime, s.positions⟩] },
      .saved)

/-- Fold a batch of position-sample deliveries over the state. -/
def deliverSamples (evs : List (ℕ × ℝ × ℝ × ℝ × ℤ)) (s : AppState) : AppState :=
  evs.foldl (fun t e => deliverSample e.1 e.2.1 e.2.2.1 e.2.2.2.1 e.2.2.2.2 t) s

/-- The states reachable from page load by any sequence of UI events, timer
ticks, geolocation callbacks and saves. -/
inductive Reachable : AppState → Prop where
  | init : Reachable initialState
  | start {s : AppState} (g : Bool) (now : ℤ) (h : Reachable s) :
      Reachable (startTracking g now s)
  | tickEv {s : AppState} (now : ℤ) (h : Reachable s) : Reachable (tick now s)
  | sample {s : AppState} (wid : ℕ) (la lo acc : ℝ) (now : ℤ) (h : Reachable s) :
      Reachable (deliverSample wid la lo acc now s)
  | geoErr {s : AppState} (wid : ℕ) (k : GeoErrorKind) (h : Reachable s) :
      Reachable (geoError wid k s)
  | stop {s : AppState} (h : Reachable s) : Reachable (stopTracking s)
  | reset {s : AppState} (h : Reachable s) : Reachable (resetTracking s)
  | save {s : AppState} (now : ℤ) (h : Reachable s) :
      Reachable (saveCurrentRun now s).1

/-- Sum of the haversine distances between consecutive recorded positions
(0 for fewer than two positions). -/
def pathDistance : List Position → ℝ
  | [] => 0
  | [_] => 0
  | a :: b :: rest =>
      calculateDistance a.latitude a.longitude b.latitude b.longitude +
        pathDistance (b :: rest)

/-- Auxiliary invariant of every reachable state: the accumulated distance is
the pairwise path distance, watch ids are positive and smaller than the next
id the browser will hand out, and a registered watch implies tracking. -/
def Inv (s : AppState) : Prop :=
  s.totalDistance = pathDistance s.positions ∧
  1 ≤ s.nextWatchId ∧
  ∀ w, s.watchId = some w → 1 ≤ w ∧ w < s.nextWatchId ∧ s.isTracking = true

/-- The mutable application `state` of variant 1 (src/app.js lines 1-13).
The history list is the DOM `historyList`; each entry shows a date string and
the run's distance, modelled by the distance. -/
@[ext]
structure AppState1 where
  isTracking : Bool
  startTime : Option ℤ
  currentTime : ℤ
  positions : List Position
  totalDistance : ℝ
  watchId : Option ℕ
  history : List ℝ
  status : Status

/-- The initial variant-1 `state` object. -/
def initialState1 : AppState1 :=
  { isTracking := false, startTime := none, currentTime := 0, positions := []
    totalDistance := 0, watchId := none, history := [], status := .waiting }

/-- From `saveToHistory` (variant 1): prepend an entry for the current total
distance to the top of the history list, then drop the oldest entry if the
list now has more than 5 children. -/
def saveToHistory (totalDistance : ℝ) (history : List ℝ) : List ℝ :=
  if 5 < (totalDistance :: history).length then (totalDistance :: history).dropLast
  else totalDistance :: history

/-- From `stopTracking` (variant 1): no-op unless tracking; otherwise stop the
timer, clear the watch, show the paused status, and, when more than 0.1 km was
accumulated, archive the run via `saveToHistory`. -/
def stopTracking1 (s : AppState1) : AppState1 :=
  if s.isTracking then
    if 0.1 < s.totalDistance then
      { s with isTracking := false, watchId := clearWatchJS s.watchId
               status := Status.paused
               history := saveToHistory s.totalDistance s.history }
    else
      { s with isTracking := false, watchId := clearWatchJS s.watchId
               status := Status.paused }
  else s

/-- From `resetTracking` (variant 1): call `stopTracking` first, then clear
the session fields and show the waiting status. -/
def resetTracking1 (s : AppState1) : AppState1 :=
  { stopTracking1 s with startTime := none, currentTime := 0, positions := []
                         totalDistance := 0, status := .waiting }

/-- A sample position at the origin. -/
def p0 : Position := ⟨0, 0, 5, 0⟩

/-- A reachable state mid-tracking with one recorded position, used to
exercise the position-sample handler on concrete input. -/
def sampleState : AppState := deliverSample 1 0 0 5 0 (startTracking true 0 initialState)

/-- A live session with half a kilometre accumulated. -/
def runState : AppState := { initialState with totalDistance := 0.5 }

/-- A live session with exactly 0.01 km (10 m) accumulated. -/
def thresholdState : AppState := { initialState with totalDistance := 0.01 }

/-- A live session with 0.005 km (5 m) accumulated. -/
def shortState : AppState := { initialState with totalDistance := 0.005 }

/-- The state right after the first `startTracking` on page load. -/
def startedState : AppState := startTracking true 0 initialState

/-- A variant-1 session mid-tracking with half a kilometre accumulated. -/
def trackState1 : AppState1 :=
  { initialState1 with isTracking := true, startTime := some 0
                       totalDistance := 0.5, watchId := some 1 }

end

open Real

theorem haversine_sin_flip (x y : ℝ) :
    sin ((x - y) * π / 180 / 2) = -sin ((y - x) * π / 180 / 2) := by
  have e : (x - y) * π / 180 / 2 = -((y - x) * π / 180 / 2) := by ring
  rw [e, Real.sin_neg]

theorem haversine_a_symm (la1 lo1 la2 lo2 : ℝ) :
    sin ((la2 - la1) * π / 180 / 2) * sin ((la2 - la1) * π / 180 / 2) +
      cos (la1 * π / 180) * cos (la2 * π / 180) *
        sin ((lo2 - lo1) * π / 180 / 2) * sin ((lo2 - lo1) * π / 180 / 2) =
    sin ((la1 - la2) * π / 180 / 2) * sin ((la1 - la2) * π / 180 / 2) +
      cos (la2 * π / 180) * cos (la1 * π / 180) *
        sin ((lo1 - lo2) * π / 180 / 2) * sin ((lo1 - lo2) * π / 180 / 2) := by
  rw [haversine_sin_flip la2 la1, haversine_sin_flip lo2 lo1]
  ring

/-- Claim C7: `calculateDistance` is the pure haversine great-circle distance
with Earth radius 6371 km; it returns 0 on identical coordinates and is
symmetric in its two coordinate pairs. -/
theorem calculateDistance_refl_and_symm :
    (∀ la lo, calculateDistance la lo la lo = 0) ∧
    (∀ la1 lo1 la2 lo2,
      calculateDistance la1 lo1 la2 lo2 = calculateDistance la2 lo2 la1 lo1) := by
  constructor
  · intro la lo
    simp [calculateDistance, atan2, Real.arctan_zero]
  · intro la1 lo1 la2 lo2
    simp only [calculateDistance]
    rw [haversine_a_symm la1 lo1 la2 lo2]

/-- Claim C8: `calculatePace` and `calculateSpeed` are total and never let a
division by zero (a non-finite value) reach their output: with zero distance
the pace is the sentinel "0:00", with zero time the speed is the sentinel 0,
and in every other case the guarded division is defined. -/
theorem pace_speed_guarded :
    (∀ t, calculatePace 0 t = some "0:00") ∧
    (∀ d t, (calculatePace d t).isSome = true) ∧
    (∀ d, calculateSpeed d 0 = some 0) ∧
    (∀ d t, (calculateSpeed d t).isSome = true) := by
  refine ⟨fun t => by simp [calculatePace], fun d t => ?_,
    fun d => by simp [calculateSpeed], fun d t => ?_⟩
  · by_cases h : d = 0
    · simp [calculatePace, h]
    · simp [calculatePace, jsDiv, h]
  · by_cases h : t = 0
    · simp [calculateSpeed, h]
    · have h2 : ((t : ℝ) / 3600) ≠ 0 :=
        div_ne_zero (Int.cast_ne_zero.mpr h) (by norm_num)
      simp [calculateSpeed, jsDiv, h, h2]

theorem pathDistance_append (ps : List Position) (p : Position) :
    pathDistance (ps ++ [p]) =
      pathDistance ps + ps.getLast?.elim 0
        (fun q => calculateDistance q.latitude q.longitude p.latitude p.longitude) := by
  induction ps with
  | nil => simp [pathDistance]
  | cons a tl ih =>
    cases tl with
    | nil => simp [pathDistance]
    | cons b tl2 =>
      have e1 : pathDistance ((a :: b :: tl2) ++ [p]) =
          calculateDistance a.latitude a.longitude b.latitude b.longitude +
            pathDistance ((b :: tl2) ++ [p]) := rfl
      have e2 : pathDistance (a :: b :: tl2) =
          calculateDistance a.latitude a.longitude b.latitude b.longitude +
            pathDistance (b :: tl2) := rfl
      rw [e1, ih, List.getLast?_cons_cons, e2]
      ring

theorem deliverSample_eq (wid : ℕ) (la lo acc : ℝ) (now : ℤ) (s : AppState) :
    deliverSample wid la lo acc now s =
      if s.watchId = some wid then
        { s with positions := s.positions ++ [⟨la, lo, acc, now⟩]
                 totalDistance := s.totalDistance + s.positions.getLast?.elim 0
                   (fun q => calculateDistance q.latitude q.longitude la lo) }
      else s := by
  unfold deliverSample
  by_cases hw : s.watchId = some wid
  · rw [if_pos hw, if_pos hw]
    cases hg : s.positions.getLast? <;> simp [hg]
  · rw [if_neg hw, if_neg hw]

theorem deliverSample_noop {wid : ℕ} {la lo acc : ℝ} {now : ℤ} {s : AppState}
    (h : ¬ s.watchId = some wid) : deliverSample wid la lo acc now s = s := by
  rw [deliverSample_eq, if_neg h]

theorem deliverSample_savedRuns (wid : ℕ) (la lo acc : ℝ) (now : ℤ) (s : AppState) :
    (deliverSample wid la lo acc now s).savedRuns = s.savedRuns := by
  rw [deliverSample_eq]; split <;> rfl

theorem deliverSamples_savedRuns (evs : List (ℕ × ℝ × ℝ × ℝ × ℤ)) (s : AppState) :
    (deliverSamples evs s).savedRuns = s.savedRuns := by
  induction evs generalizing s with
  | nil => rfl
  | cons e tl ih =>
    show (deliverSamples tl (deliverSample e.1 e.2.1 e.2.2.1 e.2.2.2.1 e.2.2.2.2 s)).savedRuns
      = s.savedRuns
    rw [ih, deliverSample_savedRuns]

theorem stopTracking_isTracking (s : AppState) : (stopTracking s).isTracking = false := by
  cases hb : s.isTracking <;> simp [stopTracking, hb]

theorem stopTracking_nextWatchId (s : AppState) :
    (stopTracking s).nextWatchId = s.nextWatchId := by
  unfold stopTracking; split <;> rfl

theorem stopTracking_watchId {s : AppState}
    (h3 : ∀ w, s.watchId = some w → 1 ≤ w ∧ w < s.nextWatchId ∧ s.isTracking = true) :
    (stopTracking s).watchId = none := by
  unfold stopTracking
  by_cases ht : s.isTracking = true
  · rw [if_pos ht]
    cases hx : s.watchId with
    | none => simp [hx, clearWatchJS]
    | some m =>
      cases m with
      | zero => exact absurd (h3 0 hx).1 (by norm_num)
      | succ m2 => simp [hx, clearWatchJS]
  · rw [if_neg ht]
    cases hx : s.watchId with
    | none => rfl
    | some w => exact absurd (h3 w hx).2.2 ht

theorem stopTracking_idem (s : AppState) :
    stopTracking (stopTracking s) = stopTracking s := by
  cases hb : s.isTracking <;> simp [stopTracking, hb]

theorem reachable_inv {s : AppState} (h : Reachable s) : Inv s := by
  induction h with
  | init =>
    exact ⟨rfl, le_refl 1, fun w hw => by simp [initialState] at hw⟩
  | @start s g now h ih =>
    obtain ⟨ih1, ih2, ih3⟩ := ih
    unfold startTracking
    by_cases ht : s.isTracking = true
    · rw [if_pos ht]; exact ⟨ih1, ih2, ih3⟩
    · rw [if_neg ht]
      by_cases hg : g = true
      · rw [if_pos hg]
        refine ⟨ih1, Nat.le_succ_of_le ih2, fun w hw => ?_⟩
        have hww : s.nextWatchId = w := by simpa using hw
        refine ⟨by omega, ?_, rfl⟩
        show w < s.nextWatchId + 1
        omega
      · rw [if_neg hg]
        refine ⟨ih1, ih2, fun w hw => ?_⟩
        exact absurd ((ih3 w hw).2.2) ht
  | @tickEv s now h ih =>
    obtain ⟨ih1, ih2, ih3⟩ := ih
    unfold tick
    split
    · split
      · exact ⟨ih1, ih2, fun w hw => ih3 w hw⟩
      · exact ⟨ih1, ih2, ih3⟩
    · exact ⟨ih1, ih2, ih3⟩
  | @sample s wid la lo acc now h ih =>
    obtain ⟨ih1, ih2, ih3⟩ := ih
    rw [deliverSample_eq]
    by_cases hw : s.watchId = some wid
    · rw [if_pos hw]
      refine ⟨?_, ih2, fun w hx => ih3 w hx⟩
      rw [pathDistance_append, ih1]
    · rw [if_neg hw]
      exact ⟨ih1, ih2, ih3⟩
  | @geoErr s wid k h ih =>
    obtain ⟨ih1, ih2, ih3⟩ := ih
    unfold geoError
    split
    · exact ⟨ih1, ih2, fun w hw => ih3 w hw⟩
    · exact ⟨ih1, ih2, ih3⟩
  | @stop s h ih =>
    obtain ⟨ih1, ih2, ih3⟩ := ih
    refine ⟨?_, ?_, fun w hw => ?_⟩
    · unfold stopTracking; split <;> exact ih1
    · rw [stopTracking_nextWatchId]; exact ih2
    · rw [stopTracking_watchId ih3] at hw
      exact absurd hw (by simp)
  | @reset s h ih =>
    obtain ⟨ih1, ih2, ih3⟩ := ih
    refine ⟨by simp [resetTracking, pathDistance], ?_, fun w hw => ?_⟩
    · show (stopTracking s).nextWatchId ≥ 1
      rw [stopTracking_nextWatchId]; exact ih2
    · have : (resetTracking s).watchId = none := by
        show (stopTracking s).watchId = none
        exact stopTracking_watchId ih3
      rw [this] at hw
      exact absurd hw (by simp)
  | @save s now h ih =>
    obtain ⟨ih1, ih2, ih3⟩ := ih
    unfold saveCurrentRun
    split
    · exact ⟨ih1, ih2, ih3⟩
    · exact ⟨ih1, ih2, fun w hw => ih3 w hw⟩

/-- Claim C1: in every reachable session state the accumulated `totalDistance`
equals the sum of the haversine distances between consecutive elements of
`positions` (0 with fewer than two positions), and each position-sample
handler call on a session with a previous position adds exactly
`calculateDistance(last, new)` and appends the new position. -/
theorem totalDistance_matches_path :
    (∀ s, Reachable s → s.totalDistance = pathDistance s.positions) ∧
    (∀ s wid la lo acc now lastPos, s.watchId = some wid →
      s.positions.getLast? = some lastPos →
      (deliverSample wid la lo acc now s).totalDistance =
        s.totalDistance + calculateDistance lastPos.latitude lastPos.longitude la lo ∧
      (deliverSample wid la lo acc now s).positions =
        s.positions ++ [⟨la, lo, acc, now⟩]) := by
  constructor
  · intro s h; exact (reachable_inv h).1
  · intro s wid la lo acc now lastPos hw hl
    rw [deliverSample_eq, if_pos hw]
    constructor <;> simp [hl]

/-- Witness for C1 at a concrete reachable state with one recorded position. -/
theorem totalDistance_matches_path_witness :
    sampleState.watchId = some 1 ∧ sampleState.positions.getLast? = some p0 ∧
    (deliverSample 1 3 4 5 9 sampleState).positions =
      sampleState.positions ++ [⟨3, 4, 5, 9⟩] ∧
    sampleState.totalDistance = pathDistance sampleState.positions := by
  refine ⟨rfl, rfl, ?_, ?_⟩
  · exact (totalDistance_matches_path.2 sampleState 1 3 4 5 9 p0 rfl rfl).2
  · exact totalDistance_matches_path.1 sampleState
      (Reachable.sample 1 0 0 5 0 (Reachable.start true 0 Reachable.init))

/-- Claim C2: once `saveCurrentRun` has archived a run, delivering any further
position samples to the live session never changes the archive: the saved
run's positions, distance and time stay exactly the snapshot taken at save
time (`positions: [...state.positions]` is a copy and samples only touch the
live session). -/
theorem saved_run_frame (s : AppState) (now : ℤ)
    (h : ¬ s.totalDistance < 0.01) (evs : List (ℕ × ℝ × ℝ × ℝ × ℤ)) :
    (saveCurrentRun now s).1.savedRuns =
      s.savedRuns ++ [⟨now, now, s.totalDistance, s.currentTime, s.positions⟩] ∧
    (deliverSamples evs (saveCurrentRun now s).1).savedRuns =
      (saveCurrentRun now s).1.savedRuns := by
  constructor
  · unfold saveCurrentRun
    rw [if_neg h]
  · exact deliverSamples_savedRuns evs _

/-- Witness for C2: saving a 0.5 km session and then delivering one more
sample leaves the archive unchanged. -/
theorem saved_run_frame_witness :
    ¬ runState.totalDistance < 0.01 ∧
    (deliverSamples [(1, 3, 4, 5, 9)] (saveCurrentRun 7 runState).1).savedRuns =
      (saveCurrentRun 7 runState).1.savedRuns := by
  have h : ¬ runState.totalDistance < 0.01 := by norm_num [runState, initialState]
  exact ⟨h, (saved_run_frame runState 7 h [(1, 3, 4, 5, 9)]).2⟩

/-- Claim C3 is falsified at the boundary: with `totalDistance` exactly
0.01 km the save succeeds, although 0.01 does not exceed the 0.01 km
threshold (the code tests `totalDistance < 0.01`, an inclusive threshold). -/
theorem save_threshold_cex :
    thresholdState.totalDistance = 0.01 ∧ ¬ (0.01 : ℝ) > 0.01 ∧
    (saveCurrentRun 0 thresholdState).2 = SaveResult.saved := by
  refine ⟨by norm_num [thresholdState, initialState], by norm_num, ?_⟩
  unfold saveCurrentRun
  rw [if_neg (by norm_num [thresholdState, initialState])]

/-- Claim C3 (amended: the threshold is inclusive, success exactly when
`totalDistance ≥ 0.01 km`): below 0.01 km `saveCurrentRun` signals RunTooShort
and changes nothing at all; at or above 0.01 km it appends exactly one run to
the archive and leaves the live session (distance, time, positions, tracking
flag) untouched — saving does not reset. -/
theorem saveCurrentRun_spec (s : AppState) (now : ℤ) :
    (s.totalDistance < 0.01 →
      saveCurrentRun now s = (s, SaveResult.runTooShort)) ∧
    (0.01 ≤ s.totalDistance →
      (saveCurrentRun now s).2 = SaveResult.saved ∧
      (saveCurrentRun now s).1.savedRuns =
        s.savedRuns ++ [⟨now, now, s.totalDistance, s.currentTime, s.positions⟩] ∧
      (saveCurrentRun now s).1.positions = s.positions ∧
      (saveCurrentRun now s).1.totalDistance = s.totalDistance ∧
      (saveCurrentRun now s).1.currentTime = s.currentTime ∧
      (saveCurrentRun now s).1.isTracking = s.isTracking) := by
  constructor
  · intro h
    unfold saveCurrentRun
    rw [if_pos h]
  · intro h
    unfold saveCurrentRun
    rw [if_neg (not_lt.mpr h)]
    exact ⟨rfl, rfl, rfl, rfl, rfl, rfl⟩

/-- Witness for C3 (amended): a 5 m session is rejected with RunTooShort and
nothing changes. -/
theorem saveCurrentRun_spec_witness :
    shortState.totalDistance < 0.01 ∧
    saveCurrentRun 0 shortState = (shortState, SaveResult.runTooShort) := by
  have h : shortState.totalDistance < 0.01 := by norm_num [shortState, initialState]
  exact ⟨h, (saveCurrentRun_spec shortState 0).1 h⟩

theorem resetTracking_isTracking (s : AppState) : (resetTracking s).isTracking = false := by
  show (stopTracking s).isTracking = false
  exact stopTracking_isTracking s

theorem stopTracking1_isTracking (t : AppState1) : (stopTracking1 t).isTracking = false := by
  unfold stopTracking1
  by_cases hb : t.isTracking = true
  · rw [if_pos hb]; split <;> rfl
  · rw [if_neg hb]; simpa using hb

/-- Claim C4: in both variants, `resetTracking` from any state yields the
cleared idle session — `totalDistance = 0`, `positions = []`,
`currentTime = 0`, `startTime = none`, not tracking, waiting status; it calls
`stopTracking` first, resetting an already-stopped state gives the same
cleared state, and reset is idempotent. -/
theorem resetTracking_clears (s : AppState) :
    (resetTracking s).totalDistance = 0 ∧
    (resetTracking s).positions = [] ∧
    (resetTracking s).currentTime = 0 ∧
    (resetTracking s).startTime = none ∧
    (resetTracking s).isTracking = false ∧
    (resetTracking s).status = Status.waiting ∧
    resetTracking (stopTracking s) = resetTracking s ∧
    resetTracking (resetTracking s) = resetTracking s ∧
    ∀ t : AppState1,
      (resetTracking1 t).totalDistance = 0 ∧ (resetTracking1 t).positions = [] ∧
      (resetTracking1 t).currentTime = 0 ∧ (resetTracking1 t).startTime = none ∧
      (resetTracking1 t).isTracking = false ∧ (resetTracking1 t).status = Status.waiting := by
  refine ⟨rfl, rfl, rfl, rfl, resetTracking_isTracking s, rfl, ?_, ?_, fun t => ?_⟩
  · unfold resetTracking
    rw [stopTracking_idem]
  · have h1 : stopTracking (resetTracking s) = resetTracking s := by
      unfold stopTracking
      rw [if_neg (by simp [resetTracking_isTracking])]
    show { stopTracking (resetTracking s) with
             startTime := none, currentTime := 0, positions := []
             totalDistance := 0, status := Status.waiting } = resetTracking s
    rw [h1]
    ext <;> rfl
  · refine ⟨rfl, rfl, rfl, rfl, ?_, rfl⟩
    show (stopTracking1 t).isTracking = false
    exact stopTracking1_isTracking t

theorem resetTracking_nextWatchId (s : AppState) :
    (resetTracking s).nextWatchId = s.nextWatchId := by
  show (stopTracking s).nextWatchId = s.nextWatchId
  exact stopTracking_nextWatchId s

theorem resetTracking_watchId {s : AppState}
    (h3 : ∀ w, s.watchId = some w → 1 ≤ w ∧ w < s.nextWatchId ∧ s.isTracking = true) :
    (resetTracking s).watchId = none := by
  show (stopTracking s).watchId = none
  exact stopTracking_watchId h3

/-- Claim C5: a late success callback from the watch that was cleared by
`reset` cannot mutate a restarted session: after `reset()` then `start()` the
delivery of a sample tagged with the stale watch id leaves the new session
completely unchanged (in particular its `totalDistance` and `positions`),
because `stopTracking`/`resetTracking` clear the watch registration
synchronously and the restarted session holds a fresh id. -/
theorem stale_callback_harmless (s : AppState) (w : ℕ) (hr : Reachable s)
    (hw : s.watchId = some w) (g : Bool) (now now2 : ℤ) (la lo acc : ℝ) :
    deliverSample w la lo acc now2 (startTracking g now (resetTracking s)) =
      startTracking g now (resetTracking s) := by
  obtain ⟨-, -, h3⟩ := reachable_inv hr
  obtain ⟨-, hlt, -⟩ := h3 w hw
  have hrw : (resetTracking s).watchId = none := resetTracking_watchId h3
  have hrn : (resetTracking s).nextWatchId = s.nextWatchId := resetTracking_nextWatchId s
  apply deliverSample_noop
  unfold startTracking
  rw [if_neg (by simp [resetTracking_isTracking])]
  by_cases hg : g = true
  · rw [if_pos hg]
    intro hc
    have hcw : (resetTracking s).nextWatchId = w := by simpa using hc
    omega
  · rw [if_neg hg]
    intro hc
    have hcw : (resetTracking s).watchId = some w := hc
    rw [hrw] at hcw
    exact Option.noConfusion hcw

/-- Witness for C5: the very first watch (id 1) is stale after reset-restart
and its late sample is a no-op on the restarted session. -/
theorem stale_callback_harmless_witness :
    startedState.watchId = some 1 ∧
    deliverSample 1 3 4 5 99 (startTracking true 50 (resetTracking startedState)) =
      startTracking true 50 (resetTracking startedState) :=
  ⟨rfl, stale_callback_harmless startedState 1
    (Reachable.start true 0 Reachable.init) rfl true 50 99 3 4 5⟩

/-- Claim C6 (amended): a geolocation error delivered to the active watch is
non-fatal and only transitions the session to the error status; contrary to
the original claim the tracking attempt does not halt: the tracking flag,
watch registration and all accumulated data are unchanged, the timer keeps
recomputing elapsed time exactly as before the error, and `start()` is a
no-op while the session is still tracking (so retry first requires a stop). -/
theorem geoError_sets_status_only (s : AppState) (wid : ℕ) (k : GeoErrorKind)
    (hw : s.watchId = some wid) :
    geoError wid k s = { s with status := Status.gpsError k } ∧
    (geoError wid k s).isTracking = s.isTracking ∧
    (geoError wid k s).watchId = s.watchId ∧
    (geoError wid k s).totalDistance = s.totalDistance ∧
    (geoError wid k s).positions = s.positions ∧
    (∀ now, (tick now (geoError wid k s)).currentTime = (tick now s).currentTime) ∧
    (s.isTracking = true →
      ∀ g now, startTracking g now (geoError wid k s) = geoError wid k s) := by
  have h1 : geoError wid k s = { s with status := Status.gpsError k } := by
    unfold geoError; rw [if_pos hw]
  refine ⟨h1, by rw [h1], by rw [h1], by rw [h1], by rw [h1], fun now => ?_,
    fun ht g now => ?_⟩
  · rw [h1]
    unfold tick
    by_cases hb : s.isTracking = true
    · cases hst : s.startTime <;> simp [hb, hst]
    · simp [hb]
  · unfold startTracking
    rw [if_pos (show (geoError wid k s).isTracking = true from by rw [h1]; exact ht)]

/-- Witness for C6 (amended) on the freshly started session. -/
theorem geoError_sets_status_only_witness :
    startedState.watchId = some 1 ∧
    geoError 1 GeoErrorKind.timedOut startedState =
      { startedState with status := Status.gpsError GeoErrorKind.timedOut } :=
  ⟨rfl, (geoError_sets_status_only startedState 1 GeoErrorKind.timedOut rfl).1⟩

/-- Claim C6 is falsified on concrete input: after a PermissionDenied error on
the live watch the timer tick still advances elapsed time (5 s after start the
session shows 5 s, it does not stop accumulating) and a further sample is
still processed (positions grows to 1), even though the status did switch to
the error status. -/
theorem geoError_halt_cex :
    (tick 5000 (geoError 1 GeoErrorKind.permissionDenied startedState)).currentTime = 5 ∧
    (deliverSample 1 3 4 5 9
        (geoError 1 GeoErrorKind.permissionDenied startedState)).positions.length = 1 ∧
    (geoError 1 GeoErrorKind.permissionDenied startedState).status =
      Status.gpsError GeoErrorKind.permissionDenied := by
  refine ⟨by decide, by decide, rfl⟩

theorem saveToHistory_spec (d : ℝ) (hist : List ℝ) :
    (saveToHistory d hist).head? = some d ∧
    (hist.length < 5 → saveToHistory d hist = d :: hist) ∧
    (5 ≤ hist.length → (saveToHistory d hist).length = hist.length) := by
  unfold saveToHistory
  by_cases h5 : 5 < (d :: hist).length
  · rw [if_pos h5]
    refine ⟨?_, fun hlen => ?_, fun _ => ?_⟩
    · cases hist with
      | nil => simp at h5
      | cons b tl => simp [List.dropLast]
    · exfalso
      simp only [List.length_cons] at h5
      omega
    · simp
  · rw [if_neg h5]
    refine ⟨rfl, fun _ => rfl, fun hlen => ?_⟩
    exfalso
    simp only [List.length_cons, not_lt] at h5
    omega

/-- Claim C10: in variant 1, stopping while tracking archives the run
implicitly: with `totalDistance` strictly above 0.1 km `stopTracking` adds
exactly one new entry for the run at the top of the history via
`saveToHistory` (dropping the oldest entry beyond the 5-entry display cap),
and with `totalDistance` at or below 0.1 km the history is untouched; this
variant has no explicit save action and signals no RunTooShort condition. -/
theorem stop_archives_implicitly (s : AppState1) (h : s.isTracking = true) :
    (0.1 < s.totalDistance →
      (stopTracking1 s).history = saveToHistory s.totalDistance s.history ∧
      (stopTracking1 s).history.head? = some s.totalDistance ∧
      (s.history.length < 5 →
        (stopTracking1 s).history = s.totalDistance :: s.history) ∧
      (5 ≤ s.history.length →
        (stopTracking1 s).history.length = s.history.length)) ∧
    (s.totalDistance ≤ 0.1 → (stopTracking1 s).history = s.history) := by
  constructor
  · intro hd
    have he : (stopTracking1 s).history = saveToHistory s.totalDistance s.history := by
      unfold stopTracking1
      rw [if_pos h, if_pos hd]
    obtain ⟨h1, h2, h3⟩ := saveToHistory_spec s.totalDistance s.history
    exact ⟨he, by rw [he]; exact h1, fun hl => by rw [he]; exact h2 hl,
      fun hl => by rw [he]; exact h3 hl⟩
  · intro hd
    unfold stopTracking1
    rw [if_pos h, if_neg (not_lt.mpr hd)]

/-- Witness for C10: stopping a tracking variant-1 session with 0.5 km
archives one entry. -/
theorem stop_archives_implicitly_witness :
    trackState1.isTracking = true ∧ (0.1 : ℝ) < trackState1.totalDistance ∧
    (stopTracking1 trackState1).history =
      saveToHistory trackState1.totalDistance trackState1.history := by
  have hd : (0.1 : ℝ) < trackState1.totalDistance := by
    norm_num [trackState1, initialState1]
  exact ⟨rfl, hd, ((stop_archives_implicitly trackState1 rfl).1 hd).1⟩

/-- Claim C9: `formatTime` renders zero-padded `HH:MM:SS`: the minutes and
seconds fields are values below 60 padded to two digits, the hours field is
the full decimal numeral of `seconds / 3600` with zero padding only ever
prepended (never truncated), so inputs of 100 hours or more render in full;
`formatTime 3661 = "01:01:01"` and `formatTime 0 = "00:00:00"`. -/
theorem formatTime_spec :
    formatTime 3661 = "01:01:01" ∧ formatTime 0 = "00:00:00" ∧
    formatTime 360000 = "100:00:00" ∧ formatTime 363599 = "100:59:59" ∧
    (∀ n : ℕ, n % 3600 / 60 < 60 ∧ n % 60 < 60) ∧
    (∀ n : ℕ, ∃ zs : List Char,
      (∀ c ∈ zs, c = '0') ∧
      formatTime n =
        (String.mk zs ++ toString (n / 3600)) ++ ":" ++
          padStart (toString (n % 3600 / 60)) 2 '0' ++ ":" ++
          padStart (toString (n % 60)) 2 '0') := by
  refine ⟨by decide, by decide, by decide, by decide, fun n => ⟨by omega, by omega⟩,
    fun n => ⟨List.replicate (2 - (toString (n / 3600)).length) '0',
      fun c hc => List.eq_of_mem_replicate hc, rfl⟩⟩

end RunningApp
